import Mathlib

/-!
# Verification of the `embedded-keypad` 4×4 matrix keypad driver

Shallow embedding of `src/lib.rs` (crate `embedded-keypad`): a driver for a
4×4 matrix keypad scanned through four column output pins and four row input
pins.

Modelling conventions:

* A pin level is a `Bool`; `true` is the electrically high level
  (`set_high` / `is_high` of the `embedded-hal` digital v2 traits).
* The `embedded_digi` macros used by the source are embedded as follows,
  with the first listed pin holding the most significant bit (the ordering
  under which `digi::read!(u8; row4, row3, row2, row1)` puts `row4` at
  bit 3 and `row1` at bit 0, and `digi::write!(col4, col3, col2, col1 =>
  4 bit => v)` puts bit 0 of `v` on `col1`):
  - `digi::write!(p1, ..., p4 => true)` sets every listed pin high;
  - `digi::write!(col4, col3, col2, col1 => 4 bit => v)` drives column
    pin `i` (0-based, `col1` = 0) to bit `i` of `v`;
  - `digi::read!(u8; row4, row3, row2, row1)` samples the four row levels
    into a 4-bit value, row `i` at bit `i`;
  - `digi::read!(any true; ...)` is true iff some listed pin reads high.
* The switch matrix itself (the hardware environment) is modelled by
  `rowLevel`: a row input reads high exactly when some closed switch
  connects it to a column that is currently driven high (the active-high
  wiring the driver's decode logic assumes; row inputs rest low).
* Machine integers: key identities are `u8` values that the driver only
  stores, moves and compares — no arithmetic is performed on them — so they
  are modelled as `Nat`.  The sampled 4-bit row pattern is a `Nat` built
  from four bits, hence always `≤ 15`.
* `read` and `read_multi` mutate only the column output levels, so the
  scanner state threaded through them is the column-level assignment
  `Cols`; each returns its result paired with the final column levels.
-/

/-- Column output levels, indexed by column 0..3 (`col1`..`col4`). -/
abbrev Cols := Fin 4 → Bool

/-- The switch matrix environment: `sw r c = true` iff the switch at the
intersection of row `r` and column `c` is closed. -/
abbrev Switches := Fin 4 → Fin 4 → Bool

/-- A 4×4 keymap, row-major: `km r c` is the key identity at `(r, c)`
(`keymap: [[u8; 4]; 4]` in the source). -/
abbrev Keymap := Fin 4 → Fin 4 → Nat

/-- `enum Keys`: one or more keys pressed simultaneously. -/
inductive Keys where
  | One (k0 : Nat)
  | Two (k0 k1 : Nat)
  | Three (k0 k1 k2 : Nat)
  | Four (k0 k1 k2 k3 : Nat)
deriving DecidableEq, Repr

/-- `Keys::as_array`: convert the keys to an array of `Option<u8>`
(the fixed-size array `[Option<u8>; 4]` is modelled as a 4-element list). -/
def Keys.as_array : Keys → List (Option Nat)
  | .One k0 => [some k0, none, none, none]
  | .Two k0 k1 => [some k0, some k1, none, none]
  | .Three k0 k1 k2 => [some k0, some k1, some k2, none]
  | .Four k0 k1 k2 k3 => [some k0, some k1, some k2, some k3]

/-- `Keys::includes`: whether a given key is among those pressed. -/
def Keys.includes : Keys → Nat → Bool
  | .One k0, key => k0 == key
  | .Two k0 k1, key => k0 == key || k1 == key
  | .Three k0 k1 k2, key => k0 == key || k1 == key || k2 == key
  | .Four k0 k1 k2 k3, key => k0 == key || k1 == key || k2 == key || k3 == key

/-- The list of key identities a `Keys` value holds, in discovery order
(the variant's fields, left to right).  Specification helper: `.length`
is the variant's arity. -/
def Keys.toList : Keys → List Nat
  | .One k0 => [k0]
  | .Two k0 k1 => [k0, k1]
  | .Three k0 k1 k2 => [k0, k1, k2]
  | .Four k0 k1 k2 k3 => [k0, k1, k2, k3]

/-- Electrical model of the matrix: row input `r` reads high exactly when
some closed switch connects it to a column currently driven high. -/
def rowLevel (sw : Switches) (cols : Cols) (r : Fin 4) : Bool :=
  ([0, 1, 2, 3] : List (Fin 4)).any fun c => sw r c && cols c

/-- The 4-bit pattern sampled from four row levels by
`digi::read!(u8; row4, row3, row2, row1)`: row 3 at bit 3 … row 0 at bit 0. -/
def patternOf (lv : Fin 4 → Bool) : Nat :=
  (cond (lv 3) 8 0) + (cond (lv 2) 4 0) + (cond (lv 1) 2 0) + (cond (lv 0) 1 0)

namespace GpioKeypad

/-- `GpioKeypad::DEFAULT_KEYMAP`, the telephone/hex-pad convention. -/
def DEFAULT_KEYMAP : Keymap :=
  ![![0x1, 0x2, 0x3, 0xF],
    ![0x4, 0x5, 0x6, 0xE],
    ![0x7, 0x8, 0x9, 0xD],
    ![0xA, 0x0, 0xB, 0xC]]

/-- `GpioKeypad::reset`: `digi::write!(col1, col2, col3, col4 => true)` —
drive all four columns high (the idle state). -/
def resetCols : Cols := fun _ => true

/-- `digi::write!(col4, col3, col2, col1 => 4 bit => 1 << pos)`: drive
column `pos` high and the other three columns low. -/
def strobe (pos : Fin 4) : Cols := fun c => Nat.testBit (1 <<< pos.val) c.val

/-- The priority row decode inside `GpioKeypad::read_char`:
`match key { 8..=15 => Some(3), 4..=7 => Some(2), 2 | 3 => Some(1),
1 => Some(0), _ => None }`. -/
def decodeRow (key : Nat) : Option (Fin 4) :=
  if 8 ≤ key ∧ key ≤ 15 then some 3
  else if 4 ≤ key ∧ key ≤ 7 then some 2
  else if key = 2 ∨ key = 3 then some 1
  else if key = 1 then some 0
  else none

/-- `GpioKeypad::read_char`: sample the 4-bit row pattern at the current
column levels, decode it to a row index, and map `(row, col)` through the
keymap. -/
def read_char (km : Keymap) (sw : Switches) (cols : Cols) (col : Fin 4) :
    Option Nat :=
  (decodeRow (patternOf (rowLevel sw cols))).map fun row => km row col

/-- `Keypad::key_is_pressed` for `GpioKeypad`:
`digi::read!(any true; row4, row3, row2, row1)` — true iff any row input
reads high at the current column levels; no column is written. -/
def key_is_pressed (sw : Switches) (cols : Cols) : Bool :=
  ([3, 2, 1, 0] : List (Fin 4)).any fun r => rowLevel sw cols r

/-- The `for pos in 0..4` loop of `GpioKeypad::read`: strobe each column in
turn; on the first column whose row pattern decodes, reset the columns and
return that key.  Returns the result together with the column levels as the
loop leaves them. -/
def scanLoop (km : Keymap) (sw : Switches) :
    List (Fin 4) → Cols → Option Nat × Cols
  | [], cols => (none, cols)
  | pos :: rest, _ =>
    let cols := strobe pos
    match read_char km sw cols pos with
    | some key => (some key, resetCols)
    | none => scanLoop km sw rest cols

/-- `Keypad::read` for `GpioKeypad`: fast-path `None` when no key is
pressed; otherwise strobe columns 0..3 in order, returning the first
decoded key (after a reset), or `None` after a reset when no column
decodes. -/
def read (km : Keymap) (sw : Switches) (cols : Cols) : Option Nat × Cols :=
  if !key_is_pressed sw cols then (none, cols)
  else
    match scanLoop km sw [0, 1, 2, 3] cols with
    | (some key, cols) => (some key, cols)
    | (none, _) => (none, resetCols)

/-- The `for pos in 0..4` loop of `GpioKeypad::read_multi`: strobe every
column in order, appending each decoded key to the buffer
(`buf[count] = key; count += 1`).  Returns the buffer together with the
column levels as the loop leaves them. -/
def multiLoop (km : Keymap) (sw : Switches) :
    List (Fin 4) → Cols → List Nat → List Nat × Cols
  | [], cols, buf => (buf, cols)
  | pos :: rest, _, buf =>
    let cols := strobe pos
    match read_char km sw cols pos with
    | some key => multiLoop km sw rest cols (buf ++ [key])
    | none => multiLoop km sw rest cols buf

/-- The `match count` at the end of `GpioKeypad::read_multi`, assembling
the collected keys into the `Keys` variant of matching arity.  The final
arm models the source's `unreachable!` branch for `count > 4`; it is proved
dead (the buffer never holds more than four keys). -/
def assembleKeys : List Nat → Option Keys
  | [] => none
  | [a] => some (.One a)
  | [a, b] => some (.Two a b)
  | [a, b, c] => some (.Three a b c)
  | [a, b, c, d] => some (.Four a b c d)
  | _ => none

/-- `Keypad::read_multi` for `GpioKeypad`: fast-path `None` when no key is
pressed; otherwise strobe all four columns unconditionally, collect at most
one key per column, reset the columns, and assemble the buffer into a
`Keys` value (`None` when the buffer is empty). -/
def read_multi (km : Keymap) (sw : Switches) (cols : Cols) :
    Option Keys × Cols :=
  if !key_is_pressed sw cols then (none, cols)
  else
    let buf := (multiLoop km sw [0, 1, 2, 3] cols []).1
    (assembleKeys buf, resetCols)

end GpioKeypad

/-- A switch matrix with exactly one switch closed, at `(row, col)`. -/
def singleSwitch (row col : Fin 4) : Switches := fun r c =>
  decide (r = row ∧ c = col)

/-- A switch matrix with exactly the switches at `(0,0)` and `(2,2)`
closed. -/
def switchesAt00And22 : Switches := fun r c =>
  decide ((r = 0 ∧ c = 0) ∨ (r = 2 ∧ c = 2))

/-- The spec's row-pattern decode table, transcribed from §4.1
("Row-pattern decode"): bits in [8,15] → row 3, [4,7] → row 2, [2,3] →
row 1, exactly 1 → row 0, otherwise no row. -/
def specRowDecode (bits : Nat) : Option Nat :=
  if 8 ≤ bits ∧ bits ≤ 15 then some 3
  else if 4 ≤ bits ∧ bits ≤ 7 then some 2
  else if 2 ≤ bits ∧ bits ≤ 3 then some 1
  else if bits = 1 then some 0
  else none

/-! ## Helper lemmas -/

lemma mem_scanList (p : Fin 4) : p ∈ ([0, 1, 2, 3] : List (Fin 4)) := by
  revert p; decide

lemma mem_rowList (r : Fin 4) : r ∈ ([3, 2, 1, 0] : List (Fin 4)) := by
  revert r; decide

namespace GpioKeypad

lemma strobe_eq (pos c : Fin 4) : strobe pos c = decide (c = pos) := by
  revert pos c; decide

lemma rowLevel_strobe (sw : Switches) (pos r : Fin 4) :
    rowLevel sw (strobe pos) r = sw r pos := by
  simp only [rowLevel, strobe_eq]
  fin_cases pos <;> simp

lemma patternOf_le (lv : Fin 4 → Bool) : patternOf lv ≤ 15 := by
  revert lv; decide

lemma decodeRow_patternOf_eq_none (lv : Fin 4 → Bool) :
    decodeRow (patternOf lv) = none ↔ ∀ r, lv r = false := by
  revert lv; decide

lemma key_is_pressed_iff (sw : Switches) (cols : Cols) :
    key_is_pressed sw cols = true ↔ ∃ r c, sw r c = true ∧ cols c = true := by
  simp only [key_is_pressed, rowLevel, List.any_eq_true, Bool.and_eq_true]
  constructor
  · rintro ⟨r, -, c, -, h⟩
    exact ⟨r, c, h⟩
  · rintro ⟨r, c, h⟩
    exact ⟨r, mem_rowList r, c, mem_scanList c, h⟩

lemma read_char_strobe_none (km : Keymap) (sw : Switches) (p : Fin 4) :
    read_char km sw (strobe p) p = none ↔ ∀ r, sw r p = false := by
  have hlv : rowLevel sw (strobe p) = fun r => sw r p :=
    funext fun r => rowLevel_strobe sw p r
  simp only [read_char, hlv, Option.map_eq_none']
  exact decodeRow_patternOf_eq_none fun r => sw r p

lemma read_char_some_keymap (km : Keymap) (sw : Switches) (cols : Cols)
    (p : Fin 4) (k : Nat) (h : read_char km sw cols p = some k) :
    ∃ r, k = km r p := by
  simp only [read_char, Option.map_eq_some'] at h
  obtain ⟨row, -, hrow⟩ := h
  exact ⟨row, hrow.symm⟩

lemma scanLoop_fst_none (km : Keymap) (sw : Switches) :
    ∀ (l : List (Fin 4)) (cols : Cols),
      (scanLoop km sw l cols).1 = none ↔
        ∀ p ∈ l, read_char km sw (strobe p) p = none := by
  intro l
  induction l with
  | nil => intro cols; simp [scanLoop]
  | cons p rest ih =>
    intro cols
    rcases h : read_char km sw (strobe p) p with - | key
    · simp [scanLoop, h, List.forall_mem_cons, ih]
    · simp [scanLoop, h, List.forall_mem_cons]

lemma scanLoop_snd_of_some (km : Keymap) (sw : Switches) :
    ∀ (l : List (Fin 4)) (cols : Cols) (k : Nat),
      (scanLoop km sw l cols).1 = some k →
        (scanLoop km sw l cols).2 = resetCols := by
  intro l
  induction l with
  | nil => intro cols k h; simp [scanLoop] at h
  | cons p rest ih =>
    intro cols k h
    rcases hc : read_char km sw (strobe p) p with - | key
    · simp only [scanLoop, hc] at h ⊢
      exact ih _ k h
    · simp [scanLoop, hc]

lemma scanLoop_fst_some_mem (km : Keymap) (sw : Switches) :
    ∀ (l : List (Fin 4)) (cols : Cols) (k : Nat),
      (scanLoop km sw l cols).1 = some k →
        ∃ p ∈ l, read_char km sw (strobe p) p = some k := by
  intro l
  induction l with
  | nil => intro cols k h; simp [scanLoop] at h
  | cons p rest ih =>
    intro cols k h
    rcases hc : read_char km sw (strobe p) p with - | key
    · simp only [scanLoop, hc] at h
      obtain ⟨q, hq, hkey⟩ := ih _ k h
      exact ⟨q, List.mem_cons_of_mem p hq, hkey⟩
    · simp only [scanLoop, hc] at h
      exact ⟨p, List.mem_cons_self p rest, by rw [hc]; exact h⟩

lemma multiLoop_fst (km : Keymap) (sw : Switches) :
    ∀ (l : List (Fin 4)) (cols : Cols) (buf : List Nat),
      (multiLoop km sw l cols buf).1 =
        buf ++ l.filterMap fun p => read_char km sw (strobe p) p := by
  intro l
  induction l with
  | nil => intro cols buf; simp [multiLoop]
  | cons p rest ih =>
    intro cols buf
    rcases h : read_char km sw (strobe p) p with - | key
    · simp [multiLoop, h, ih, List.filterMap_cons]
    · simp [multiLoop, h, ih, List.filterMap_cons]

lemma assembleKeys_cases :
    ∀ buf : List Nat, buf.length ≤ 4 →
      (assembleKeys buf = none ↔ buf = []) ∧
        ∀ ks, assembleKeys buf = some ks → ks.toList = buf := by
  rintro (- | ⟨a, - | ⟨b, - | ⟨c, - | ⟨d, - | t⟩⟩⟩⟩) h
  · simp [assembleKeys]
  · exact ⟨by simp [assembleKeys], by
      rintro ks hks; simp [assembleKeys] at hks; subst hks; rfl⟩
  · exact ⟨by simp [assembleKeys], by
      rintro ks hks; simp [assembleKeys] at hks; subst hks; rfl⟩
  · exact ⟨by simp [assembleKeys], by
      rintro ks hks; simp [assembleKeys] at hks; subst hks; rfl⟩
  · exact ⟨by simp [assembleKeys], by
      rintro ks hks; simp [assembleKeys] at hks; subst hks; rfl⟩
  · simp at h

end GpioKeypad

/-! ## Claim theorems -/

/-- Claim C1: for every keymap and every pair `(row, col)` with
`0 ≤ row ≤ 3` and `0 ≤ col ≤ 3`, if exactly one switch is closed — the one
at that `(row, col)` intersection — then `read()` returns
`Some(keymap[row][col])`. -/
theorem claim_C1 (km : Keymap) (row col : Fin 4) :
    (GpioKeypad.read km (singleSwitch row col) GpioKeypad.resetCols).1 =
      some (km row col) := by
  fin_cases row <;> fin_cases col <;> rfl

/-- Claim C2: the per-column decode classifies every sampled 4-bit row
pattern into exactly one row index by the spec's priority ranges
(8..15 → row 3, 4..7 → row 2, 2..3 → row 1, exactly 1 → row 0, 0 → no
row); in particular pattern `0b0011 = 3` decodes to row index 1 only. -/
theorem claim_C2 :
    (∀ bits : Fin 16,
        (GpioKeypad.decodeRow bits.val).map Fin.val = specRowDecode bits.val) ∧
      GpioKeypad.decodeRow 3 = some 1 := by
  decide

/-- Claim C5: `read_multi()` strobes all four columns unconditionally in
column order 0→3, collecting at most one key per column (the collected
buffer is exactly the in-order `filterMap` of the per-column probe over
columns 0,1,2,3); and with switches closed at `(0,0)` and `(2,2)`
simultaneously it returns `Keys::Two(keymap[0][0], keymap[2][2])` —
column 0's key first. -/
theorem claim_C5 :
    (∀ (km : Keymap) (sw : Switches) (cols : Cols) (buf : List Nat),
        (GpioKeypad.multiLoop km sw [0, 1, 2, 3] cols buf).1 =
          buf ++ ([0, 1, 2, 3] : List (Fin 4)).filterMap
            (fun p => GpioKeypad.read_char km sw (GpioKeypad.strobe p) p)) ∧
      ∀ km : Keymap,
        (GpioKeypad.read_multi km switchesAt00And22 GpioKeypad.resetCols).1 =
          some (Keys.Two (km 0 0) (km 2 2)) :=
  ⟨fun km sw cols buf => GpioKeypad.multiLoop_fst km sw _ cols buf,
   fun _ => rfl⟩

/-- Claim C6 counterexample: the claim requires the probed column driven
low while idle drives columns high — two distinct levels — but the source
(`1 << pos` strobe, `=> true` reset) drives the probed column to the very
same level the idle state drives it to, so the claim's polarity is wrong
whichever electrical level `true` denotes: probing column 0 leaves column 0
at `true` (high), not low. -/
theorem claim_C6_counterexample :
    GpioKeypad.strobe 0 0 = true ∧ GpioKeypad.resetCols 0 = true := by
  decide

/-- Claim C6 (amended): to probe column `c` during a scan, exactly that
column is driven high (the asserting level in this driver's active-high
convention) while the other three columns are driven low; a row's bit in
the sampled pattern is set — the row reads as pressed — exactly when its
input level is high; and the idle state drives all four columns high. -/
theorem claim_C6_amended :
    (∀ pos c : Fin 4, GpioKeypad.strobe pos c = decide (c = pos)) ∧
      (∀ (lv : Fin 4 → Bool) (r : Fin 4),
        Nat.testBit (patternOf lv) r.val = lv r) ∧
      ∀ c : Fin 4, GpioKeypad.resetCols c = true := by
  decide

/-- Claim C7: for every matrix state, the buffer `read_multi()` collects
holds at most four keys (at most one per column), so the assembled result
always fits a `Keys` variant of arity 1..4 and the `unreachable!` arm for a
count greater than four is dead: the assembly yields `None` exactly on the
empty buffer. -/
theorem claim_C7 (km : Keymap) (sw : Switches) (cols : Cols) :
    (GpioKeypad.multiLoop km sw [0, 1, 2, 3] cols []).1.length ≤ 4 ∧
      (GpioKeypad.assembleKeys
          (GpioKeypad.multiLoop km sw [0, 1, 2, 3] cols []).1 = none ↔
        (GpioKeypad.multiLoop km sw [0, 1, 2, 3] cols []).1 = []) := by
  have hlen : (GpioKeypad.multiLoop km sw [0, 1, 2, 3] cols []).1.length ≤ 4 := by
    rw [GpioKeypad.multiLoop_fst]
    simpa using List.length_filterMap_le
      (fun p => GpioKeypad.read_char km sw (GpioKeypad.strobe p) p)
      ([0, 1, 2, 3] : List (Fin 4))
  exact ⟨hlen, (GpioKeypad.assembleKeys_cases _ hlen).1⟩

/-- Claim C9: for every `Keys` value of arity `n` (`1 ≤ n ≤ 4`),
`as_array()` yields a length-4 array whose first `n` slots are `Some` of
the held keys in original discovery order and whose remaining `4 - n`
slots are `None`. -/
theorem claim_C9 (ks : Keys) :
    ks.as_array =
        ks.toList.map some ++ List.replicate (4 - ks.toList.length) none ∧
      ks.as_array.length = 4 ∧
      1 ≤ ks.toList.length ∧ ks.toList.length ≤ 4 := by
  cases ks <;> refine ⟨rfl, rfl, ?_, ?_⟩ <;> simp [Keys.toList]

/-- Claim C3: for every state of the switch matrix (and any keymap and
column-output state), `key_is_pressed()` returns false if and only if
`read()` returns `None` and `read_multi()` returns `None`. -/
theorem claim_C3 (km : Keymap) (sw : Switches) (cols : Cols) :
    GpioKeypad.key_is_pressed sw cols = false ↔
      (GpioKeypad.read km sw cols).1 = none ∧
        (GpioKeypad.read_multi km sw cols).1 = none := by
  constructor
  · intro h
    simp [GpioKeypad.read, GpioKeypad.read_multi, h]
  · rintro ⟨h1, -⟩
    by_contra hk
    rw [Bool.not_eq_false] at hk
    obtain ⟨r, c, hrc, hc⟩ := (GpioKeypad.key_is_pressed_iff sw cols).mp hk
    have hchar : GpioKeypad.read_char km sw (GpioKeypad.strobe c) c ≠ none := by
      intro hnone
      have hall := (GpioKeypad.read_char_strobe_none km sw c).mp hnone
      have h2 := hall r
      rw [hrc] at h2
      exact Bool.noConfusion h2
    have hscan : (GpioKeypad.scanLoop km sw [0, 1, 2, 3] cols).1 ≠ none := by
      intro hnone
      exact hchar
        (((GpioKeypad.scanLoop_fst_none km sw _ cols).mp hnone) c (mem_scanList c))
    rcases hres : GpioKeypad.scanLoop km sw [0, 1, 2, 3] cols with ⟨o, c2⟩
    cases o with
    | none => exact hscan (by rw [hres])
    | some k =>
      have hr : (GpioKeypad.read km sw cols).1 = some k := by
        simp [GpioKeypad.read, hk, hres]
      rw [hr] at h1
      exact Option.some_ne_none k h1

/-- Claim C4: after every `read()` or `read_multi()` call that begins with
the columns idle, all four column outputs are back in the idle/high state
on every exit path (fast-path no-key, key found, scan completed without a
key — the theorem quantifies over every keymap and matrix state, which
together exercise all three paths). -/
theorem claim_C4 (km : Keymap) (sw : Switches) (c : Fin 4) :
    (GpioKeypad.read km sw GpioKeypad.resetCols).2 c = true ∧
      (GpioKeypad.read_multi km sw GpioKeypad.resetCols).2 c = true := by
  constructor
  · rcases hk : GpioKeypad.key_is_pressed sw GpioKeypad.resetCols with - | -
    · simp [GpioKeypad.read, hk, GpioKeypad.resetCols]
    · rcases hres : GpioKeypad.scanLoop km sw [0, 1, 2, 3] GpioKeypad.resetCols
        with ⟨o, c2⟩
      cases o with
      | none => simp [GpioKeypad.read, hk, hres, GpioKeypad.resetCols]
      | some k =>
        have h2 : c2 = GpioKeypad.resetCols := by
          have hsnd := GpioKeypad.scanLoop_snd_of_some km sw [0, 1, 2, 3]
            GpioKeypad.resetCols k (by rw [hres])
          rw [hres] at hsnd
          exact hsnd
        simp [GpioKeypad.read, hk, hres, h2, GpioKeypad.resetCols]
  · rcases hk : GpioKeypad.key_is_pressed sw GpioKeypad.resetCols with - | -
    · simp [GpioKeypad.read_multi, hk, GpioKeypad.resetCols]
    · simp [GpioKeypad.read_multi, hk, GpioKeypad.resetCols]

/-- Claim C8: `key_is_pressed()` writes no column output — it is a pure
function of the four row-input samples taken with the columns exactly as
the idle convention left them (after reset all columns sit at `true`, the
level this driver's strobe also asserts): it returns whether any row input
reads high, and two column states yielding the same row samples yield the
same answer. -/
theorem claim_C8 :
    (∀ (sw : Switches) (cols : Cols),
        GpioKeypad.key_is_pressed sw cols =
          decide (∃ r : Fin 4, rowLevel sw cols r = true)) ∧
      ∀ (sw : Switches) (cols colsB : Cols),
        (∀ r : Fin 4, rowLevel sw cols r = rowLevel sw colsB r) →
          GpioKeypad.key_is_pressed sw cols =
            GpioKeypad.key_is_pressed sw colsB := by
  constructor
  · intro sw cols
    have hiff : GpioKeypad.key_is_pressed sw cols = true ↔
        ∃ r : Fin 4, rowLevel sw cols r = true := by
      simp only [GpioKeypad.key_is_pressed, List.any_eq_true]
      constructor
      · rintro ⟨r, -, h⟩
        exact ⟨r, h⟩
      · rintro ⟨r, h⟩
        exact ⟨r, mem_rowList r, h⟩
    by_cases h : ∃ r : Fin 4, rowLevel sw cols r = true
    · rw [hiff.mpr h, decide_eq_true h]
    · rw [decide_eq_false h, Bool.eq_false_iff]
      intro htrue
      exact h (hiff.mp htrue)
  · intro sw cols colsB h
    simp only [GpioKeypad.key_is_pressed, h]

/-- Claim C8 witness: with only the switch at `(0,0)` closed, sampling in
the idle state and sampling with column 0 strobed give the same row levels,
so `key_is_pressed` agrees on the two column states. -/
theorem claim_C8_witness :
    GpioKeypad.key_is_pressed (singleSwitch 0 0) GpioKeypad.resetCols =
      GpioKeypad.key_is_pressed (singleSwitch 0 0) (GpioKeypad.strobe 0) :=
  claim_C8.2 (singleSwitch 0 0) GpioKeypad.resetCols (GpioKeypad.strobe 0)
    (by decide)

/-- Claim C10: for every keymap and every state of the matrix, any key
identity returned by `read()`, and every key identity held in a `Keys`
value returned by `read_multi()`, is an entry `keymap[row][col]` of the
scanner's current keymap for some row and column in 0..3. -/
theorem claim_C10 (km : Keymap) (sw : Switches) (cols : Cols) :
    (∀ k, (GpioKeypad.read km sw cols).1 = some k → ∃ r c, k = km r c) ∧
      ∀ ks, (GpioKeypad.read_multi km sw cols).1 = some ks →
        ∀ k ∈ ks.toList, ∃ r c, k = km r c := by
  constructor
  · intro k h
    rcases hk : GpioKeypad.key_is_pressed sw cols with - | -
    · simp [GpioKeypad.read, hk] at h
    · rcases hres : GpioKeypad.scanLoop km sw [0, 1, 2, 3] cols with ⟨o, c2⟩
      cases o with
      | none => simp [GpioKeypad.read, hk, hres] at h
      | some k2 =>
        have hk2 : k2 = k := by
          simp [GpioKeypad.read, hk, hres] at h
          exact h
        subst hk2
        obtain ⟨p, -, hchar⟩ :=
          GpioKeypad.scanLoop_fst_some_mem km sw _ cols k2 (by rw [hres])
        obtain ⟨r, hr⟩ := GpioKeypad.read_char_some_keymap km sw _ p k2 hchar
        exact ⟨r, p, hr⟩
  · intro ks hks k hkmem
    rcases hk : GpioKeypad.key_is_pressed sw cols with - | -
    · simp [GpioKeypad.read_multi, hk] at hks
    · have hbuf := GpioKeypad.multiLoop_fst km sw [0, 1, 2, 3] cols []
      have hlen : (GpioKeypad.multiLoop km sw [0, 1, 2, 3] cols []).1.length ≤ 4 := by
        rw [hbuf]
        simpa using List.length_filterMap_le
          (fun p => GpioKeypad.read_char km sw (GpioKeypad.strobe p) p)
          ([0, 1, 2, 3] : List (Fin 4))
      have hassemble : GpioKeypad.assembleKeys
          (GpioKeypad.multiLoop km sw [0, 1, 2, 3] cols []).1 = some ks := by
        simp [GpioKeypad.read_multi, hk] at hks
        exact hks
      have htl : ks.toList = (GpioKeypad.multiLoop km sw [0, 1, 2, 3] cols []).1 :=
        (GpioKeypad.assembleKeys_cases _ hlen).2 ks hassemble
      rw [htl, hbuf] at hkmem
      simp only [List.nil_append, List.mem_filterMap] at hkmem
      obtain ⟨p, -, hchar⟩ := hkmem
      obtain ⟨r, hr⟩ := GpioKeypad.read_char_some_keymap km sw _ p k hchar
      exact ⟨r, p, hr⟩

/-- Claim C10 witness: with the default keymap, the key `read()` reports
for the single switch at `(0,0)` and the keys `read_multi()` reports for
switches at `(0,0)` and `(2,2)` are all entries of the keymap. -/
theorem claim_C10_witness :
    (∃ r c, (1 : Nat) = GpioKeypad.DEFAULT_KEYMAP r c) ∧
      ∃ r c, (9 : Nat) = GpioKeypad.DEFAULT_KEYMAP r c :=
  ⟨(claim_C10 GpioKeypad.DEFAULT_KEYMAP (singleSwitch 0 0)
      GpioKeypad.resetCols).1 1 (by rfl),
   (claim_C10 GpioKeypad.DEFAULT_KEYMAP switchesAt00And22
      GpioKeypad.resetCols).2 (Keys.Two 1 9) (by rfl) 9 (by decide)⟩
